import Mathlib

/-!
Verification of the qetch download engine against its design description.

The definitions below are shallow embeddings of the Python source:

  * `DownloadState`, `calcRanges`, `progressLoopStep`, the orchestration of
    `BaseDownloader.download` (src/qetch/downloaders/_common.py), and
  * `handleChunkLoop`, `handleDownloadRangeSupport`
    (src/qetch/downloaders/http.py), and
  * `merge` (src/qetch/extractors/_common.py).

Machine integers in the source are Python arbitrary-precision ints, so they
are embedded as `Nat`/`Int` directly.  Fallible code (Python exceptions)
is embedded with `Option`/`Except`.
-/

/-- The enum of allowed download states (src/qetch/downloaders/_common.py,
lines 21-34). -/
inductive DownloadState where
  | STOPPED
  | RUNNING
  | PREPARING
  | FINISHED
deriving Repr, DecidableEq

/-- Python `list(range(0, stop, step))` for a positive `step`: the multiples
of `step` below `stop`, in ascending order.  The element count is the
ceiling of `stop / step`. -/
def pyRange (stop step : Nat) : List Nat :=
  List.range' 0 ((stop + step - 1) / step) step

/-- Pairing of consecutive elements, as done in `_calc_ranges` by the
`itertools.tee` / `next(end)` / `zip(start, end)` idiom: for
`[b0, b1, ..., bk]` the result is `[(b0, b1), (b1, b2), ..., (b(k-1), bk)]`. -/
def consecutivePairs (l : List Nat) : List (Nat × Nat) :=
  l.zip l.tail

/-- The merge step of `_calc_ranges` (lines 92-93):
`ranges[-2] = (ranges[-2][0], ranges[-1][-1]); del ranges[-1]` replaces the
last two ranges by a single range from the start of the former to the end of
the latter. -/
def mergeLastRanges : List (Nat × Nat) → List (Nat × Nat)
  | [] => []
  | [r] => [r]
  | [r1, r2] => [(r1.1, r2.2)]
  | r :: rest => r :: mergeLastRanges rest

/-- Embedding of `BaseDownloader._calc_ranges` (src/qetch/downloaders/
_common.py, lines 70-94).  The boundary points are
`range(0, content_length, content_length // max_connections)` followed by
`content_length`; consecutive boundaries are zipped into ranges; if that
produces more than `max_connections` ranges the last two are merged once.
When the integer stride `content_length // max_connections` is zero, Python
`range` raises `ValueError` (zero step), embedded as `none`. -/
def calcRanges (content_length max_connections : Nat) : Option (List (Nat × Nat)) :=
  let step := content_length / max_connections
  if step = 0 then
    none
  else
    let boundaries := pyRange content_length step ++ [content_length]
    let ranges := consecutivePairs boundaries
    if ranges.length > max_connections then
      some (mergeLastRanges ranges)
    else
      some ranges

/-- Sum of `end - start` over a list of ranges: the bytes covered when each
range is read with inclusive start and exclusive end. -/
def rangeSpan (rs : List (Nat × Nat)) : Nat :=
  (rs.map (fun r => r.2 - r.1)).sum

/-- Sum of `end - start + 1` over a list of ranges: the bytes requested when
each range is read with inclusive start and inclusive end, which is the
reading `HTTPDownloader.handle_chunk` uses when it sends the header
`Range: bytes=start-end`. -/
def rangeSpanInclusive (rs : List (Nat × Nat)) : Nat :=
  (rs.map (fun r => r.2 - r.1 + 1)).sum

/-- Embedding of `BaseExtractor.merge` (src/qetch/extractors/_common.py,
lines 91-102): `ordered_filepaths[0] if len(ordered_filepaths) > 0 else
None`. -/
def merge (ordered_filepaths : List String) : Option String :=
  if h : 0 < ordered_filepaths.length then
    some (ordered_filepaths.get ⟨0, h⟩)
  else
    none

/-- One iteration of the polling loop of `BaseDownloader.handle_progress`
(src/qetch/downloaders/_common.py, lines 116-128), for the current counter
value, content length, and stored download state of the identity.  Returns
whether the loop keeps running and the notification it sends this
iteration:

  * if `counter < content_length`, send `(counter, content_length)` and
    keep looping;
  * elif `counter >= content_length` or the state is STOPPED, break;
  * else keep looping without sending. -/
def progressLoopStep (counter content_length : Nat) (state : Option DownloadState) :
    Bool × Option (Nat × Nat) :=
  if counter < content_length then
    (true, some (counter, content_length))
  else if content_length ≤ counter ∨ state = some DownloadState.STOPPED then
    (false, none)
  else
    (true, none)

/-- The streaming loop of `HTTPDownloader.handle_chunk`
(src/qetch/downloaders/http.py, lines 62-73): for each received chunk the
body writes the chunk to the stream and adds its length to the progress
counter of the identity.  The loop body contains no read of the download
state, so the stored state is carried as an argument that the body never
consults.  Returns the list of chunks written and the final counter. -/
def handleChunkLoop (downloadState : Option DownloadState) (progress : Nat) :
    List (List Nat) → List (List Nat) × Nat
  | [] => ([], progress)
  | chunk :: rest =>
    let step := handleChunkLoop downloadState (progress + chunk.length) rest
    (chunk :: step.1, step.2)

/-- Python `str.lower`, embedded as a per-character map (header values are
ASCII). -/
def pyLower (s : String) : String :=
  String.mk (s.data.map Char.toLower)

/-- The range-support decision of `HTTPDownloader.handle_download`
(src/qetch/downloaders/http.py, lines 100-103):

  `if headers.get("Accept-Ranges").lower() != "bytes": connections = 1;
  accept_ranges = False`.

The argument is the value of the `Accept-Ranges` header if present.  When
the header is absent, `headers.get` returns `None` and `None.lower()`
raises `AttributeError`, embedded as `none`; otherwise the result is the
pair `(connections, accept_ranges)` used for the GET requests. -/
def handleDownloadRangeSupport (acceptRangesHeader : Option String) (connections : Nat) :
    Option (Nat × Bool) :=
  match acceptRangesHeader with
  | none => none
  | some value =>
    if pyLower value ≠ "bytes" then some (1, false) else some (connections, true)

/-- Errors a download can finish with: a failed assertion (the two
precondition asserts), a network error raised by a fragment worker, or the
TypeError from `shutil.move(None, to_path)` when `merge` returns `None`. -/
inductive DownloadError where
  | assertion (msg : String)
  | network (msg : String)
  | typeError (msg : String)
deriving Repr, DecidableEq

/-- The bookkeeping dictionaries of `BaseDownloader`, projected at one
download identity: `download_state[download_id]` and
`progress_store[download_id]`, where `none` means the key is absent. -/
structure EngineState where
  downloadState : Option DownloadState
  progressStore : Option Nat
deriving Repr, DecidableEq

/-- Both dictionaries hold no entry for the identity. -/
def initialEngineState : EngineState := ⟨none, none⟩

/-- The two asserts at the top of `BaseDownloader.download`
(src/qetch/downloaders/_common.py, lines 207-213), executed before the
download id is minted and before the temporary directory is created. -/
def downloadPreconditions (max_fragments max_connections : Int) : Except DownloadError Unit :=
  if max_fragments > 0 then
    if max_connections > 0 then
      Except.ok ()
    else
      Except.error (DownloadError.assertion "max_connections must be at least 1")
  else
    Except.error (DownloadError.assertion "max_fragments must be at least 1")

/-- The setup block of `BaseDownloader.handle_progress` (lines 109-114):
store PREPARING and a zero counter for the identity when the keys are
absent. -/
def handleProgressInit (st : EngineState) : EngineState :=
  let st1 : EngineState :=
    if st.downloadState = none then ⟨some DownloadState.PREPARING, st.progressStore⟩ else st
  if st1.progressStore = none then ⟨st1.downloadState, some 0⟩ else st1

/-- The `finally` block of `BaseDownloader.handle_progress` (lines
129-135): delete the progress entry of the identity and send one final
`(content_length, content_length)` notification. -/
def handleProgressFinally (st : EngineState) (content_length : Nat) :
    EngineState × (Nat × Nat) :=
  (⟨st.downloadState, none⟩, (content_length, content_length))

/-- Sequential collection of `future.result()` over the fragment futures,
as done by the list comprehension at lines 254-257: the first stored
exception, in list order, is re-raised; otherwise all paths are returned. -/
def collectResults : List (Except DownloadError String) → Except DownloadError (List String)
  | [] => Except.ok []
  | Except.error e :: _ => Except.error e
  | Except.ok a :: rest =>
    match collectResults rest with
    | Except.error e => Except.error e
    | Except.ok l => Except.ok (a :: l)

/-- Observable facts about one call of `BaseDownloader.download`: whether a
download id was minted and a temporary directory created, whether the merge
function of the extractor was invoked, the sequence of values assigned to
`download_state[download_id]` in order, the final bookkeeping entries for
the identity, and the returned path or raised error. -/
structure RunTrace where
  identityMinted : Bool
  tempDirCreated : Bool
  mergeCalled : Bool
  stateWrites : List DownloadState
  final : EngineState
  result : Except DownloadError String
deriving Repr

/-- Embedding of one call of `BaseDownloader.download`
(src/qetch/downloaders/_common.py, lines 137-261).

Arguments: the two option values checked by the asserts; whether a progress
hook was supplied; the outcome of each fragment future in fragment order
(as observed by `future.result()`); the total content size; the value the
fragment workers drive the progress counter to; the destination path.

The call proceeds as in the source: (1) the two asserts, before any other
effect; (2) the download id is minted and the temporary directory created;
(3) when a hook is given, `handle_progress` is submitted and runs its setup
block; (4) the fragment futures run; (5) the poll loop at lines 244-246
exits without raising, because `future.running()` and `time.sleep` raise
nothing, so line 247 assigns FINISHED; the except branch at lines 248-250,
the only place assigning STOPPED, is unreachable for fragment errors, which
surface only later at `future.result()`; (6) the results are collected and
the first error, if any, propagates before `merge` is invoked; on success
`merge` is invoked and the result moved to the destination; (7) leaving the
executor block waits for `handle_progress`, whose loop (see
`progressLoopStep`) exits only once the counter has reached the content
length; when a hook was given and the counter stays short of the total, the
call therefore never returns, embedded as `none`; when it does exit, its
`finally` block deletes the progress entry. -/
def downloadRun (max_fragments max_connections : Int) (hookGiven : Bool)
    (outcomes : List (Except DownloadError String))
    (content_length finalCounter : Nat) (to_path : String) : Option RunTrace :=
  match downloadPreconditions max_fragments max_connections with
  | Except.error e => some ⟨false, false, false, [], initialEngineState, Except.error e⟩
  | Except.ok _ =>
    let st0 := initialEngineState
    let st1 := if hookGiven then handleProgressInit st0 else st0
    let writes0 : List DownloadState := if hookGiven then [DownloadState.PREPARING] else []
    let st2 : EngineState :=
      if hookGiven then ⟨st1.downloadState, some finalCounter⟩ else st1
    let st3 : EngineState := ⟨some DownloadState.FINISHED, st2.progressStore⟩
    let writes1 := writes0 ++ [DownloadState.FINISHED]
    let finish : Bool → Except DownloadError String → Option RunTrace :=
      fun mergeCalled value =>
        if hookGiven then
          if content_length ≤ finalCounter then
            some ⟨true, true, mergeCalled, writes1,
              (handleProgressFinally st3 content_length).1, value⟩
          else
            none
        else
          some ⟨true, true, mergeCalled, writes1, st3, value⟩
    match collectResults outcomes with
    | Except.error e => finish false (Except.error e)
    | Except.ok paths =>
      match merge paths with
      | none => finish true (Except.error (DownloadError.typeError "shutil.move with None"))
      | some _ => finish true (Except.ok to_path)

theorem rangeSpan_cons (r : Nat × Nat) (rs : List (Nat × Nat)) :
    rangeSpan (r :: rs) = (r.2 - r.1) + rangeSpan rs := by
  simp [rangeSpan]

theorem rangeSpanInclusive_eq :
    ∀ rs : List (Nat × Nat), rangeSpanInclusive rs = rangeSpan rs + rs.length
  | [] => rfl
  | r :: rs => by
    have ih := rangeSpanInclusive_eq rs
    simp only [rangeSpanInclusive, rangeSpan, List.map_cons, List.sum_cons,
      List.length_cons] at ih ⊢
    omega

theorem rangeSpan_consecutivePairs :
    ∀ l : List Nat, List.Chain' (· ≤ ·) l →
      rangeSpan (consecutivePairs l) + l.head?.getD 0 = l.getLast?.getD 0
  | [], _ => by simp [consecutivePairs, rangeSpan]
  | [a], _ => by simp [consecutivePairs, rangeSpan]
  | a :: b :: t, h => by
    have hab : a ≤ b := (List.chain'_cons.mp h).1
    have ih := rangeSpan_consecutivePairs (b :: t) (List.chain'_cons.mp h).2
    have hcp : consecutivePairs (a :: b :: t) = (a, b) :: consecutivePairs (b :: t) := rfl
    rw [hcp, rangeSpan_cons, List.getLast?_cons_cons]
    simp only [List.head?_cons, Option.getD_some] at ih ⊢
    omega

theorem consecutivePairs_adjacent :
    ∀ l : List Nat, List.Chain' (fun r1 r2 : Nat × Nat => r1.2 = r2.1) (consecutivePairs l)
  | [] => List.chain'_nil
  | [_] => List.chain'_nil
  | [_, _] => List.chain'_singleton _
  | a :: b :: c :: t => by
    have ih := consecutivePairs_adjacent (b :: c :: t)
    have h1 : consecutivePairs (a :: b :: c :: t) =
        (a, b) :: consecutivePairs (b :: c :: t) := rfl
    have h2 : consecutivePairs (b :: c :: t) = (b, c) :: consecutivePairs (c :: t) := rfl
    rw [h1, h2]
    rw [h2] at ih
    exact List.chain'_cons.mpr ⟨rfl, ih⟩

theorem consecutivePairs_le :
    ∀ l : List Nat, List.Chain' (· ≤ ·) l → ∀ r ∈ consecutivePairs l, r.1 ≤ r.2
  | [], _, r, hr => by simp [consecutivePairs] at hr
  | [a], _, r, hr => by simp [consecutivePairs] at hr
  | a :: b :: t, h, r, hr => by
    have hcp : consecutivePairs (a :: b :: t) = (a, b) :: consecutivePairs (b :: t) := rfl
    rw [hcp, List.mem_cons] at hr
    rcases hr with hr | hr
    · subst hr
      exact (List.chain'_cons.mp h).1
    · exact consecutivePairs_le (b :: t) (List.chain'_cons.mp h).2 r hr

theorem mergeLastRanges_rangeSpan :
    ∀ rs : List (Nat × Nat),
      List.Chain' (fun r1 r2 : Nat × Nat => r1.2 = r2.1) rs →
      (∀ r ∈ rs, r.1 ≤ r.2) →
      rangeSpan (mergeLastRanges rs) = rangeSpan rs
  | [], _, _ => rfl
  | [r], _, _ => rfl
  | [r1, r2], hadj, hle => by
    have h12 : r1.2 = r2.1 := (List.chain'_cons.mp hadj).1
    have h1 : r1.1 ≤ r1.2 := hle r1 (by simp)
    have h2 : r2.1 ≤ r2.2 := hle r2 (by simp)
    simp only [mergeLastRanges, rangeSpan, List.map_cons, List.map_nil,
      List.sum_cons, List.sum_nil]
    omega
  | r :: s :: u :: rest, hadj, hle => by
    have ih := mergeLastRanges_rangeSpan (s :: u :: rest) (List.chain'_cons.mp hadj).2
      (fun x hx => hle x (List.mem_cons_of_mem _ hx))
    have hme : mergeLastRanges (r :: s :: u :: rest) =
        r :: mergeLastRanges (s :: u :: rest) := rfl
    rw [hme, rangeSpan_cons, rangeSpan_cons, ih]

theorem pyRange_chain (L s : Nat) : List.Chain' (· ≤ ·) (pyRange L s) :=
  (List.pairwise_le_range' 0 ((L + s - 1) / s) s).chain'

theorem pyRange_le (L s : Nat) (hs : 0 < s) : ∀ x ∈ pyRange L s, x ≤ L := by
  intro x hx
  rw [pyRange, List.mem_range'] at hx
  obtain ⟨i, hi, hx⟩ := hx
  subst hx
  have h1 : s * (i + 1) ≤ s * ((L + s - 1) / s) := Nat.mul_le_mul_left s hi
  have h2 : ((L + s - 1) / s) * s ≤ L + s - 1 := Nat.div_mul_le_self (L + s - 1) s
  rw [Nat.mul_comm] at h2
  have h3 : s * i + s * 1 ≤ s * ((L + s - 1) / s) := by
    rw [← Nat.mul_add]
    exact h1
  omega

theorem pyRange_head (L s : Nat) (hL : 0 < L) (hs : 0 < s) :
    (pyRange L s).head? = some 0 := by
  have hk : 1 ≤ (L + s - 1) / s := by
    rw [Nat.one_le_div_iff hs]
    omega
  rw [pyRange, show (L + s - 1) / s = ((L + s - 1) / s - 1) + 1 by omega,
    List.range'_succ]
  rfl

theorem boundaries_chain (L s : Nat) (hs : 0 < s) :
    List.Chain' (· ≤ ·) (pyRange L s ++ [L]) := by
  rw [List.chain'_append]
  refine ⟨pyRange_chain L s, List.chain'_singleton L, ?_⟩
  intro x hx y hy
  rw [Option.mem_def] at hx hy
  have hxm : x ∈ pyRange L s := List.mem_of_getLast?_eq_some hx
  have hy' : y = L := by
    simp only [List.head?_cons, Option.some.injEq] at hy
    omega
  rw [hy']
  exact pyRange_le L s hs x hxm

theorem calcRanges_eq_some (L C : Nat) (hC : 1 ≤ C) (hCL : C ≤ L) :
    ∃ rs, calcRanges L C = some rs ∧ rangeSpan rs = L := by
  have hs : 1 ≤ L / C := (Nat.one_le_div_iff (by omega)).mpr hCL
  have hL : 0 < L := by omega
  have hchainB : List.Chain' (· ≤ ·) (pyRange L (L / C) ++ [L]) :=
    boundaries_chain L (L / C) (by omega)
  have hhead : (pyRange L (L / C) ++ [L]).head? = some 0 := by
    rw [List.head?_append, pyRange_head L (L / C) hL (by omega)]
    rfl
  have hlast : (pyRange L (L / C) ++ [L]).getLast? = some L :=
    List.getLast?_concat _
  have hspan : rangeSpan (consecutivePairs (pyRange L (L / C) ++ [L])) = L := by
    have h := rangeSpan_consecutivePairs (pyRange L (L / C) ++ [L]) hchainB
    rw [hhead, hlast] at h
    simpa using h
  simp only [calcRanges]
  rw [if_neg (by omega : ¬ (L / C = 0))]
  by_cases hlen : (consecutivePairs (pyRange L (L / C) ++ [L])).length > C
  · rw [if_pos hlen]
    refine ⟨_, rfl, ?_⟩
    rw [mergeLastRanges_rangeSpan _ (consecutivePairs_adjacent _)
      (consecutivePairs_le _ hchainB)]
    exact hspan
  · rw [if_neg hlen]
    exact ⟨_, rfl, hspan⟩

/-- C1: the claim states that `_calc_ranges` returns exactly
`min(connections, length)` ranges for every `length >= 1` and
`connections >= 1`, and length one-byte ranges when `length < connections`.
The code does neither: at `length = 5, connections = 3` it returns the four
ranges `[(0,1),(1,2),(2,3),(3,5)]` where `min 3 5 = 3` (the single merge of
the last two ranges is not enough when the remainder exceeds the stride),
contradicting the docstring of `_calc_ranges`, which promises a list of
size `max_connections`; and at `length = 2, connections = 3` the stride
`2 // 3` is zero, so `range(0, 2, 0)` raises `ValueError` instead of
producing one-byte ranges. -/
theorem C1_calcRanges_count_bug :
    calcRanges 5 3 = some [(0, 1), (1, 2), (2, 3), (3, 5)] ∧
    ((calcRanges 5 3).getD []).length = 4 ∧ min 3 5 = 3 ∧
    calcRanges 2 3 = none := by decide

/-- C2 counterexample: the claim states that the sum of
`end - start + 1` (the inclusive HTTP Range reading used by
`handle_chunk`) over the returned ranges equals `length`.  At
`length = 10, connections = 2` the code returns `[(0,5),(5,10)]` whose
inclusive sum is `12`, not `10`: the partition is inclusive-exclusive, so
the inclusive reading counts every interior boundary byte twice and runs
one byte past the end. -/
theorem C2_inclusive_sum_counterexample :
    calcRanges 10 2 = some [(0, 5), (5, 10)] ∧
    rangeSpanInclusive [(0, 5), (5, 10)] = 12 ∧
    rangeSpanInclusive [(0, 5), (5, 10)] ≠ 10 := by decide

/-- C2 amended: for every `length >= connections >= 1` (the inputs where
`_calc_ranges` returns at all), the returned ranges read with inclusive
start and exclusive end sum to exactly `length`:
`sum of (end - start) = length`.  Under the inclusive-inclusive reading of
the claim the sum is `length` plus the number of ranges. -/
theorem C2_rangeSpan_eq_length (length connections : Nat)
    (h1 : 1 ≤ connections) (h2 : connections ≤ length) :
    ∃ rs, calcRanges length connections = some rs ∧ rangeSpan rs = length ∧
      rangeSpanInclusive rs = length + rs.length := by
  obtain ⟨rs, hrs, hspan⟩ := calcRanges_eq_some length connections h1 h2
  refine ⟨rs, hrs, hspan, ?_⟩
  rw [rangeSpanInclusive_eq, hspan]

/-- C2 witness: the amended statement evaluated at
`length = 10, connections = 2`. -/
theorem C2_rangeSpan_eq_length_witness :
    ∃ rs, calcRanges 10 2 = some rs ∧ rangeSpan rs = 10 ∧
      rangeSpanInclusive rs = 10 + rs.length :=
  C2_rangeSpan_eq_length 10 2 (by decide) (by decide)

/-- C3: the claim states that when a fragment download raises, `download`
sets the DownloadState of the identity to STOPPED, re-raises the first
error, and never invokes merge.  The code does re-raise the first error
and does skip merge, but it records FINISHED, not STOPPED: the polling
loop at lines 244-246 exits without raising (neither `future.running()`
nor `time.sleep` raises when a worker stores an exception), so line 247
assigns FINISHED, and the fragment error only surfaces afterwards at
`future.result()`, outside the try whose except branch assigns STOPPED.
Recording FINISHED for an errored download contradicts the documentation
of the enum, which reserves FINISHED for success and STOPPED for error. -/
theorem C3_download_error_sets_finished :
    downloadRun 1 8 false
        [Except.error (DownloadError.network "connection reset")] 10 0 "out" =
      some ⟨true, true, false, [DownloadState.FINISHED],
        ⟨some DownloadState.FINISHED, none⟩,
        Except.error (DownloadError.network "connection reset")⟩ := by rfl

/-- C4: the claim states that the progress loop terminates whenever the
counter has reached the total or the state is STOPPED.  In the code the
STOPPED disjunct is dead: the elif is only reached when the counter is at
least the total, where its first disjunct already holds, so with the
counter at 5 of 10 and the state STOPPED the iteration still emits a
progress notification and keeps looping.  The exit test written at lines
123-125 shows the intended break on STOPPED, so this is a slip in the
if/elif structure of the code. -/
theorem C4_progress_loop_ignores_stopped :
    progressLoopStep 5 10 (some DownloadState.STOPPED) = (true, some (5, 10)) := by rfl

/-- C5 counterexample: the claim states that the chunk fetcher checks the
DownloadState before each increment and stops writing once it observes
STOPPED.  The body of `handle_chunk` contains no such check: with the
state already STOPPED and two streamed increments, both are written and
the counter still advances, instead of the claimed immediate return with
no writes. -/
theorem C5_chunk_ignores_stopped_counterexample :
    handleChunkLoop (some DownloadState.STOPPED) 0 [[104], [105]] = ([[104], [105]], 2) ∧
    ([[104], [105]] : List (List Nat)) ≠ [] := by decide

/-- C5 amended: `handle_chunk` never consults the DownloadState; for every
state, starting counter and chunk stream it writes every streamed
increment and adds each increment length to the progress counter. -/
theorem C5_chunk_writes_all_increments (st : Option DownloadState) :
    ∀ (chunks : List (List Nat)) (p : Nat),
      handleChunkLoop st p chunks = (chunks, p + (chunks.map List.length).sum)
  | [], p => by simp [handleChunkLoop]
  | c :: rest, p => by
    have ih := C5_chunk_writes_all_increments st rest (p + c.length)
    simp only [handleChunkLoop, ih, List.map_cons, List.sum_cons]
    exact Prod.ext rfl (by omega)

/-- C6: the claim states that an absent `Accept-Ranges` header forces one
connection and a GET without a Range header, like a non-bytes value does.
The non-bytes case behaves as claimed (one connection, no Range header,
and with one connection the partitioner yields a single range covering
the whole content), but the absent case crashes:
`headers.get("Accept-Ranges")` returns `None` and `None.lower()` raises
`AttributeError`.  The use of `.get` instead of indexing shows the code
intended to tolerate the missing header, so this is a slip. -/
theorem C6_accept_ranges_absent_crashes :
    handleDownloadRangeSupport none 8 = none ∧
    handleDownloadRangeSupport (some "none") 8 = some (1, false) ∧
    calcRanges 100 1 = some [(0, 100)] := by decide

/-- C7: `download` with `max_fragments <= 0` or `max_connections <= 0`
fails on one of the two asserts before any identity is minted, any
temporary directory is created, any network request is issued, or any
per-identity bookkeeping entry is created. -/
theorem C7_preconditions_fail_fast (max_fragments max_connections : Int)
    (hookGiven : Bool) (outcomes : List (Except DownloadError String))
    (content_length finalCounter : Nat) (to_path : String)
    (h : max_fragments ≤ 0 ∨ max_connections ≤ 0) :
    ∃ msg, downloadRun max_fragments max_connections hookGiven outcomes
        content_length finalCounter to_path =
      some ⟨false, false, false, [], initialEngineState,
        Except.error (DownloadError.assertion msg)⟩ := by
  unfold downloadRun downloadPreconditions
  rcases h with h | h
  · rw [if_neg (by omega : ¬ (max_fragments > 0))]
    exact ⟨_, rfl⟩
  · by_cases h2 : max_fragments > 0
    · rw [if_pos h2, if_neg (by omega : ¬ (max_connections > 0))]
      exact ⟨_, rfl⟩
    · rw [if_neg h2]
      exact ⟨_, rfl⟩

/-- C7 witness: the statement evaluated at `max_fragments = 0`. -/
theorem C7_preconditions_fail_fast_witness :
    ∃ msg, downloadRun 0 8 false [] 100 0 "out" =
      some ⟨false, false, false, [], initialEngineState,
        Except.error (DownloadError.assertion msg)⟩ :=
  C7_preconditions_fail_fast 0 8 false [] 100 0 "out" (Or.inl (by decide))

/-- C8 counterexample: the claim states that no bookkeeping entry keyed by
the identity survives the call.  On a completed download the
`download_state` entry of the identity survives with value FINISHED: the
source deletes only the `progress_store` entry (in the finally block of
`handle_progress`) and contains no deletion of `download_state` at all. -/
theorem C8_state_entry_survives_counterexample :
    (downloadRun 1 8 true [Except.ok "fragment0"] 10 10 "dest").map
        (fun tr => tr.final.downloadState) = some (some DownloadState.FINISHED) ∧
    some DownloadState.FINISHED ≠ (none : Option DownloadState) := by
  exact ⟨rfl, by decide⟩

/-- Closed form of `downloadRun` on every call that passes the two asserts
and returns: the identity is minted, the temporary directory created,
merge is invoked exactly when no fragment future stored an error, the
state writes are PREPARING (hook only) then FINISHED, and the final
bookkeeping holds a FINISHED state entry and no progress entry. -/
theorem downloadRun_ok_eq (max_fragments max_connections : Int)
    (hookGiven : Bool) (outcomes : List (Except DownloadError String))
    (content_length finalCounter : Nat) (to_path : String)
    (hmf : 0 < max_fragments) (hmc : 0 < max_connections)
    (hret : hookGiven = true → content_length ≤ finalCounter) :
    downloadRun max_fragments max_connections hookGiven outcomes
        content_length finalCounter to_path =
      some ⟨true, true,
        (match collectResults outcomes with
         | Except.ok _ => true
         | Except.error _ => false),
        (if hookGiven then [DownloadState.PREPARING, DownloadState.FINISHED]
          else [DownloadState.FINISHED]),
        ⟨some DownloadState.FINISHED, none⟩,
        (match collectResults outcomes with
         | Except.error e => Except.error e
         | Except.ok paths =>
           match merge paths with
           | none => Except.error (DownloadError.typeError "shutil.move with None")
           | some _ => Except.ok to_path)⟩ := by
  have hpre : downloadPreconditions max_fragments max_connections = Except.ok () := by
    unfold downloadPreconditions
    rw [if_pos hmf, if_pos hmc]
  unfold downloadRun
  rw [hpre]
  cases hookGiven with
  | true =>
    have hcf : content_length ≤ finalCounter := hret rfl
    cases hco : collectResults outcomes with
    | error e =>
      simp [hco, hcf, handleProgressInit, handleProgressFinally, initialEngineState]
    | ok paths =>
      cases hm : merge paths with
      | none =>
        simp [hco, hm, hcf, handleProgressInit, handleProgressFinally, initialEngineState]
      | some p =>
        simp [hco, hm, hcf, handleProgressInit, handleProgressFinally, initialEngineState]
  | false =>
    cases hco : collectResults outcomes with
    | error e =>
      simp [hco, initialEngineState]
    | ok paths =>
      cases hm : merge paths with
      | none =>
        simp [hco, hm, initialEngineState]
      | some p =>
        simp [hco, hm, initialEngineState]

/-- C8 amended: on every call of `download` that passes the preconditions
and returns (when a hook is given this requires the counter to reach the
total, else the executor shutdown never completes), the `progress_store`
entry of the identity is gone at return, but the `download_state` entry
survives the call with value FINISHED. -/
theorem C8_teardown_partial (max_fragments max_connections : Int)
    (hookGiven : Bool) (outcomes : List (Except DownloadError String))
    (content_length finalCounter : Nat) (to_path : String)
    (hmf : 0 < max_fragments) (hmc : 0 < max_connections)
    (hret : hookGiven = true → content_length ≤ finalCounter) :
    ∃ tr, downloadRun max_fragments max_connections hookGiven outcomes
        content_length finalCounter to_path = some tr ∧
      tr.final.progressStore = none ∧
      tr.final.downloadState = some DownloadState.FINISHED :=
  ⟨_, downloadRun_ok_eq max_fragments max_connections hookGiven outcomes
    content_length finalCounter to_path hmf hmc hret, rfl, rfl⟩

/-- C8 witness: the amended statement evaluated on a one-fragment success
with a hook. -/
theorem C8_teardown_partial_witness :
    ∃ tr, downloadRun 1 8 true [Except.ok "f0"] 10 10 "dest2" = some tr ∧
      tr.final.progressStore = none ∧
      tr.final.downloadState = some DownloadState.FINISHED :=
  C8_teardown_partial 1 8 true [Except.ok "f0"] 10 10 "dest2" (by decide) (by decide)
    (fun _ => by decide)

/-- The state sequences allowed by the claimed machine
PREPARING to RUNNING to one terminal state: every prefix of the chain,
ending in FINISHED or STOPPED. -/
def claimedStateSequences : List (List DownloadState) :=
  [[], [DownloadState.PREPARING],
   [DownloadState.PREPARING, DownloadState.RUNNING],
   [DownloadState.PREPARING, DownloadState.RUNNING, DownloadState.FINISHED],
   [DownloadState.PREPARING, DownloadState.RUNNING, DownloadState.STOPPED]]

/-- C9 counterexample: the claim states every reachable state sequence is
a prefix of PREPARING, RUNNING, then a terminal state, with RUNNING
entered once at least one byte has been transferred.  A completed
download of 25 bytes writes the sequence [PREPARING, FINISHED]: no
assignment of RUNNING exists anywhere in the source, so the sequence is
not among the claimed prefixes even though bytes were transferred. -/
theorem C9_running_never_entered_counterexample :
    (downloadRun 1 8 true [Except.ok "part0"] 25 25 "merged").map
        (fun tr => tr.stateWrites) =
      some [DownloadState.PREPARING, DownloadState.FINISHED] ∧
    [DownloadState.PREPARING, DownloadState.FINISHED] ∉ claimedStateSequences ∧
    (0 : Nat) < 25 := by
  refine ⟨rfl, by decide, by decide⟩

/-- C9 amended: on every call past the preconditions that returns, the
sequence of values assigned to the DownloadState of the identity is
exactly [PREPARING, FINISHED] when a progress hook is given (the progress
loop writes PREPARING, the engine writes FINISHED) and [FINISHED]
otherwise; RUNNING and STOPPED are never assigned (the only STOPPED
assignment sits in an except branch that fragment errors never reach),
and in particular the state never moves backward. -/
theorem C9_state_sequence (max_fragments max_connections : Int)
    (hookGiven : Bool) (outcomes : List (Except DownloadError String))
    (content_length finalCounter : Nat) (to_path : String)
    (hmf : 0 < max_fragments) (hmc : 0 < max_connections)
    (hret : hookGiven = true → content_length ≤ finalCounter) :
    ∃ tr, downloadRun max_fragments max_connections hookGiven outcomes
        content_length finalCounter to_path = some tr ∧
      tr.stateWrites = (if hookGiven then
        [DownloadState.PREPARING, DownloadState.FINISHED]
        else [DownloadState.FINISHED]) ∧
      DownloadState.RUNNING ∉ tr.stateWrites ∧
      DownloadState.STOPPED ∉ tr.stateWrites := by
  refine ⟨_, downloadRun_ok_eq max_fragments max_connections hookGiven outcomes
    content_length finalCounter to_path hmf hmc hret, rfl, ?_, ?_⟩ <;>
    cases hookGiven <;> simp

/-- C9 witness: the amended statement evaluated on a two-fragment success
without a hook. -/
theorem C9_state_sequence_witness :
    ∃ tr, downloadRun 2 4 false [Except.ok "a", Except.ok "b"] 30 0 "m2" = some tr ∧
      tr.stateWrites = (if false then
        [DownloadState.PREPARING, DownloadState.FINISHED]
        else [DownloadState.FINISHED]) ∧
      DownloadState.RUNNING ∉ tr.stateWrites ∧
      DownloadState.STOPPED ∉ tr.stateWrites :=
  C9_state_sequence 2 4 false [Except.ok "a", Except.ok "b"] 30 0 "m2"
    (by decide) (by decide) (fun h => absurd h (by decide))

/-- C10: the default extractor merge returns the first element for every
non-empty input list, so it is the identity on single-fragment content
and silently discards every path after the first, and it returns None on
the empty list. -/
theorem C10_merge_first_or_none :
    (∀ (p : String) (rest : List String), merge (p :: rest) = some p) ∧
    merge ([] : List String) = none := by
  constructor
  · intro p rest
    simp [merge]
  · rfl
